import Mathlib

/-!
Verification development for the Thai ID card OCR pipeline
(`OCR/ocr_support_file_heic.py`, the pytesseract variant, and
`OCR/ocr_thai_id_card_easyocr.py`, the EasyOCR variant).

The detection models and OCR engines are external black boxes; they are
modelled as oracle functions.  Everything the repository itself computes
(deduplication, sorting, slicing arithmetic, entity mapping, the pipeline
control flow and the HTTP error wrapping) is translated directly from the
Python source.
-/

namespace ThaiIdOcr

/-! ### Python string primitives used by the source -/

/-- The characters Python treats as whitespace for `str.split()`,
`str.strip()` and the regex class `\s` (ASCII range). -/
def pyIsSpace (c : Char) : Bool :=
  c = ' ' || c = '\t' || c = '\n' || c = '\r' || c = Char.ofNat 11 || c = Char.ofNat 12

/-- Python `str.strip()`: drop leading and trailing whitespace. -/
def pyStrip (s : String) : String :=
  String.mk (((s.data.dropWhile pyIsSpace).reverse.dropWhile pyIsSpace).reverse)

/-- Helper for `pySplit`: scans the characters, accumulating the current
token (reversed) and the finished tokens. -/
def pySplitAux : List Char → List Char → List String → List String
  | [], cur, acc => if cur = [] then acc else acc ++ [String.mk cur.reverse]
  | c :: rest, cur, acc =>
    if pyIsSpace c then
      if cur = [] then pySplitAux rest [] acc
      else pySplitAux rest [] (acc ++ [String.mk cur.reverse])
    else pySplitAux rest (c :: cur) acc

/-- Python `str.split()` with no argument: split on runs of whitespace,
dropping empty pieces. -/
def pySplit (s : String) : List String :=
  pySplitAux s.data [] []

/-- `re.sub(r'[^\d\s]', '', s)`: keep only digits and whitespace. -/
def keepDigitsAndSpaces (s : String) : String :=
  String.mk (s.data.filter (fun c => c.isDigit || pyIsSpace c))

/-- `re.sub(r'[\n\x0c]', '', s)`: remove newline and form-feed characters. -/
def stripNewlineFormfeed (s : String) : String :=
  String.mk (s.data.filter (fun c => !(c = '\n' || c = Char.ofNat 12)))

/-! ### Python dict model

A `dict` is modelled as an association list in insertion order: assigning to
an existing key overwrites its value in place, assigning to a fresh key
appends at the end.  Lookup returns the (unique) entry for a key. -/

/-- `d[k]` / `k in d` lookup on the association-list model of a dict. -/
def pyGet (k : String) : List (String × String) → Option String
  | [] => none
  | e :: rest => if e.1 = k then some e.2 else pyGet k rest

/-- `d[k] = v` on the association-list model of a dict: overwrite in place
if the key exists, otherwise append. -/
def updIns : List (String × String) → String → String → List (String × String)
  | [], k, v => [(k, v)]
  | e :: rest, k, v => if e.1 = k then (k, v) :: rest else e :: updIns rest k v

theorem pyGet_updIns (m : List (String × String)) (k v l : String) :
    pyGet l (updIns m k v) = if k = l then some v else pyGet l m := by
  induction m with
  | nil =>
    simp only [updIns, pyGet]
  | cons e rest ih =>
    by_cases he : e.1 = k
    · simp only [updIns, he, if_pos rfl, pyGet]
      by_cases hkl : k = l
      · simp [hkl]
      · have hel : ¬ e.1 = l := by rw [he]; exact hkl
        simp [hkl, hel]
    · simp only [updIns, if_neg he, pyGet]
      by_cases hel : e.1 = l
      · have hkl : ¬ k = l := fun h => he (by rw [hel, h])
        simp [hel, hkl]
      · simp [hel, ih]

theorem pyGet_eq_none_iff (l : String) (m : List (String × String)) :
    pyGet l m = none ↔ ∀ p ∈ m, p.1 ≠ l := by
  induction m with
  | nil => simp [pyGet]
  | cons e rest ih =>
    by_cases he : e.1 = l
    · simp [pyGet, he]
    · simp [pyGet, he, ih]

/-! ### `map_entities` (pytesseract variant, `ocr_support_file_heic.py` lines 107-121) -/

/-- The body of the pass-through loop in `map_entities`:
`for label, text in raw_text_data.items(): if label not in ['id_card','en_name']:
entities[label] = text.strip()`. -/
def passThroughStep (acc : List (String × String)) (p : String × String) :
    List (String × String) :=
  if p.1 = "id_card" ∨ p.1 = "en_name" then acc else updIns acc p.1 (pyStrip p.2)

/-- The `id_card` block of `map_entities`:
`if 'id_card' in raw: entities['id_card'] = re.sub(r'[^\d\s]', '', raw['id_card']).strip()`,
starting from the empty `entities` dict. -/
def idCardEntities (raw : List (String × String)) : List (String × String) :=
  match pyGet "id_card" raw with
  | some v => updIns [] "id_card" (pyStrip (keepDigitsAndSpaces v))
  | none => []

/-- The `en_name` block of `map_entities`: split on whitespace; with at least
3 parts set `en_prefix`, `en_firstname` and `en_lastname` (remaining parts
joined by a single space); otherwise set the fallback key `en_name_raw`. -/
def enNameEntities (raw : List (String × String)) (e1 : List (String × String)) :
    List (String × String) :=
  match pyGet "en_name" raw with
  | some v =>
    let parts := pySplit v
    if 3 ≤ parts.length then
      updIns (updIns (updIns e1 "en_prefix" (parts.getD 0 ""))
        "en_firstname" (parts.getD 1 "")) "en_lastname"
        (String.intercalate " " (parts.drop 2))
    else updIns e1 "en_name_raw" v
  | none => e1

/-- `map_entities` of the pytesseract variant: cleans the `id_card` value,
splits the `en_name` value, and passes all other fields through with a
`strip()`. -/
def map_entities (raw : List (String × String)) : List (String × String) :=
  raw.foldl passThroughStep (enNameEntities raw (idCardEntities raw))

/-- `map_entities` of the EasyOCR variant is the identity
(`ocr_thai_id_card_easyocr.py` lines 97-99). -/
def map_entities_easyocr (raw : List (String × String)) : List (String × String) :=
  raw

theorem pyGet_foldl_passThrough (raw : List (String × String))
    (acc : List (String × String)) (l : String)
    (h : ∀ p ∈ raw, p.1 = "id_card" ∨ p.1 = "en_name" ∨ p.1 ≠ l) :
    pyGet l (raw.foldl passThroughStep acc) = pyGet l acc := by
  induction raw generalizing acc with
  | nil => rfl
  | cons p rest ih =>
    have hp := h p (by simp)
    have hrest : ∀ q ∈ rest, q.1 = "id_card" ∨ q.1 = "en_name" ∨ q.1 ≠ l :=
      fun q hq => h q (by simp [hq])
    simp only [List.foldl_cons]
    rw [ih _ hrest]
    by_cases hg : p.1 = "id_card" ∨ p.1 = "en_name"
    · simp [passThroughStep, hg]
    · have hne : p.1 ≠ l := by
        rcases hp with h1 | h2 | h3
        · exact absurd (Or.inl h1) hg
        · exact absurd (Or.inr h2) hg
        · exact h3
      simp [passThroughStep, hg, pyGet_updIns, hne]

theorem pyGet_idCardEntities_other (raw : List (String × String)) (l : String)
    (h : l ≠ "id_card") : pyGet l (idCardEntities raw) = none := by
  unfold idCardEntities
  rcases pyGet "id_card" raw with _ | w
  · rfl
  · show pyGet l [("id_card", pyStrip (keepDigitsAndSpaces w))] = none
    simp only [pyGet]
    rw [if_neg (Ne.symm h)]

theorem pyGet_idCardEntities_self (raw : List (String × String)) :
    pyGet "id_card" (idCardEntities raw) =
      (pyGet "id_card" raw).map (fun v => pyStrip (keepDigitsAndSpaces v)) := by
  unfold idCardEntities
  rcases pyGet "id_card" raw with _ | w
  · rfl
  · simp [updIns, pyGet]

theorem pyGet_enNameEntities_other (raw e1 : List (String × String)) (l : String)
    (h1 : l ≠ "en_prefix") (h2 : l ≠ "en_firstname") (h3 : l ≠ "en_lastname")
    (h4 : l ≠ "en_name_raw") :
    pyGet l (enNameEntities raw e1) = pyGet l e1 := by
  unfold enNameEntities
  rcases pyGet "en_name" raw with _ | v
  · rfl
  · dsimp only
    split
    · rw [pyGet_updIns, if_neg (Ne.symm h3), pyGet_updIns, if_neg (Ne.symm h2),
        pyGet_updIns, if_neg (Ne.symm h1)]
    · rw [pyGet_updIns, if_neg (Ne.symm h4)]

/-- Claim C3 counterexample: on a `RawTextMap` that itself carries an
`en_prefix` label next to `en_name`, the pass-through loop of `map_entities`
overwrites the `en_prefix` value produced by the name split, so the first
token of `en_name` ("MR") is NOT what ends up under `en_prefix`. -/
theorem C3_counterexample :
    pySplit "MR JOHN VAN DAMME" = ["MR", "JOHN", "VAN", "DAMME"] ∧
    pyGet "en_prefix"
        (map_entities [("en_name", "MR JOHN VAN DAMME"), ("en_prefix", "ZZ")]) =
      some "ZZ" ∧
    pyGet "en_prefix"
        (map_entities [("en_name", "MR JOHN VAN DAMME"), ("en_prefix", "ZZ")]) ≠
      some "MR" := by
  decide

/-- Claim C3 (amended): for every `RawTextMap` containing `en_name` and not
itself containing any of the output keys `en_prefix`, `en_firstname`,
`en_lastname`, `en_name_raw`: with at least 3 whitespace tokens,
`map_entities` puts the first token under `en_prefix`, the second under
`en_firstname`, the remaining tokens joined by a single space under
`en_lastname`, and emits no `en_name_raw`; otherwise it puts the entire raw
string under `en_name_raw` and emits none of the prefix/first/last keys. -/
theorem C3_en_name_amended (raw : List (String × String)) (v : String)
    (hv : pyGet "en_name" raw = some v)
    (hp : pyGet "en_prefix" raw = none) (hf : pyGet "en_firstname" raw = none)
    (hl : pyGet "en_lastname" raw = none) (hr : pyGet "en_name_raw" raw = none) :
    (3 ≤ (pySplit v).length →
      pyGet "en_prefix" (map_entities raw) = (pySplit v).get? 0 ∧
      pyGet "en_firstname" (map_entities raw) = (pySplit v).get? 1 ∧
      pyGet "en_lastname" (map_entities raw) =
        some (String.intercalate " " ((pySplit v).drop 2)) ∧
      pyGet "en_name_raw" (map_entities raw) = none) ∧
    ((pySplit v).length < 3 →
      pyGet "en_name_raw" (map_entities raw) = some v ∧
      pyGet "en_prefix" (map_entities raw) = none ∧
      pyGet "en_firstname" (map_entities raw) = none ∧
      pyGet "en_lastname" (map_entities raw) = none) := by
  have fold : ∀ l : String, pyGet l raw = none →
      pyGet l (map_entities raw) =
        pyGet l (enNameEntities raw (idCardEntities raw)) := by
    intro l h
    exact pyGet_foldl_passThrough raw _ l
      (fun p hp' => Or.inr (Or.inr ((pyGet_eq_none_iff l raw).mp h p hp')))
  have hideE : ∀ l : String, l ≠ "id_card" →
      pyGet l (idCardEntities raw) = none :=
    fun l h => pyGet_idCardEntities_other raw l h
  constructor
  · intro h3
    rcases hsp : pySplit v with _ | ⟨p0, _ | ⟨p1, _ | ⟨p2, rest⟩⟩⟩
    · rw [hsp] at h3; simp at h3
    · rw [hsp] at h3; simp at h3
    · rw [hsp] at h3; simp at h3
    · have hE : enNameEntities raw (idCardEntities raw) =
          updIns (updIns (updIns (idCardEntities raw) "en_prefix" p0)
            "en_firstname" p1) "en_lastname"
            (String.intercalate " " (p2 :: rest)) := by
        unfold enNameEntities
        rw [hv]
        dsimp only
        rw [hsp]
        rw [if_pos (by simp)]
        rfl
      refine ⟨?_, ?_, ?_, ?_⟩
      · rw [fold _ hp, hE, pyGet_updIns, if_neg (by decide), pyGet_updIns,
          if_neg (by decide), pyGet_updIns, if_pos rfl]
        rfl
      · rw [fold _ hf, hE, pyGet_updIns, if_neg (by decide), pyGet_updIns,
          if_pos rfl]
        rfl
      · rw [fold _ hl, hE, pyGet_updIns, if_pos rfl]
        rfl
      · rw [fold _ hr, hE, pyGet_updIns, if_neg (by decide), pyGet_updIns,
          if_neg (by decide), pyGet_updIns, if_neg (by decide)]
        exact hideE _ (by decide)
  · intro h3
    have hE : enNameEntities raw (idCardEntities raw) =
        updIns (idCardEntities raw) "en_name_raw" v := by
      unfold enNameEntities
      rw [hv]
      dsimp only
      rw [if_neg (by omega)]
    refine ⟨?_, ?_, ?_, ?_⟩
    · rw [fold _ hr, hE, pyGet_updIns, if_pos rfl]
    · rw [fold _ hp, hE, pyGet_updIns, if_neg (by decide)]
      exact hideE _ (by decide)
    · rw [fold _ hf, hE, pyGet_updIns, if_neg (by decide)]
      exact hideE _ (by decide)
    · rw [fold _ hl, hE, pyGet_updIns, if_neg (by decide)]
      exact hideE _ (by decide)

/-- Witness for `C3_en_name_amended` at the spec's own example input. -/
theorem C3_en_name_amended_witness :
    pyGet "en_prefix" (map_entities [("en_name", "MR JOHN VAN DAMME")]) =
      (pySplit "MR JOHN VAN DAMME").get? 0 ∧
    pyGet "en_firstname" (map_entities [("en_name", "MR JOHN VAN DAMME")]) =
      (pySplit "MR JOHN VAN DAMME").get? 1 ∧
    pyGet "en_lastname" (map_entities [("en_name", "MR JOHN VAN DAMME")]) =
      some (String.intercalate " " ((pySplit "MR JOHN VAN DAMME").drop 2)) ∧
    pyGet "en_name_raw" (map_entities [("en_name", "MR JOHN VAN DAMME")]) = none :=
  (C3_en_name_amended [("en_name", "MR JOHN VAN DAMME")] "MR JOHN VAN DAMME"
    (by decide) (by decide) (by decide) (by decide) (by decide)).1 (by decide)

/-- Claim C4 counterexample: on `{"id_card": "1 2340 567-89\n"}` the code
keeps the embedded whitespace between the digit groups (the regex removes
only non-digit non-whitespace characters, and `strip()` trims only the
ends), so the result is `"1 2340 56789"`, not the claimed `"1234056789"`. -/
theorem C4_counterexample :
    pyGet "id_card" (map_entities [("id_card", "1 2340 567-89\n")]) =
      some "1 2340 56789" ∧
    pyGet "id_card" (map_entities [("id_card", "1 2340 567-89\n")]) ≠
      some "1234056789" := by
  decide

/-- Claim C4 (amended): for every `RawTextMap` containing `id_card`,
`map_entities` removes every character that is not a digit and not
whitespace, then trims the ends; embedded whitespace between digit groups is
preserved, so on `{"id_card": "1 2340 567-89\n"}` the output is
`{"id_card": "1 2340 56789"}`. -/
theorem C4_id_card_amended :
    (∀ (raw : List (String × String)) (v : String),
      pyGet "id_card" raw = some v →
      pyGet "id_card" (map_entities raw) =
        some (pyStrip (keepDigitsAndSpaces v))) ∧
    map_entities [("id_card", "1 2340 567-89\n")] = [("id_card", "1 2340 56789")] := by
  constructor
  · intro raw v hv
    have fold : pyGet "id_card" (map_entities raw) =
        pyGet "id_card" (enNameEntities raw (idCardEntities raw)) := by
      refine pyGet_foldl_passThrough raw _ "id_card" (fun p _ => ?_)
      by_cases h : p.1 = "id_card"
      · exact Or.inl h
      · exact Or.inr (Or.inr h)
    rw [fold,
      pyGet_enNameEntities_other raw _ "id_card" (by decide) (by decide)
        (by decide) (by decide),
      pyGet_idCardEntities_self, hv]
    rfl
  · decide

/-- Witness for `C4_id_card_amended` at a concrete input. -/
theorem C4_id_card_amended_witness :
    pyGet "id_card" (map_entities [("id_card", " 12-34 ")]) =
      some (pyStrip (keepDigitsAndSpaces " 12-34 ")) :=
  C4_id_card_amended.1 [("id_card", " 12-34 ")] " 12-34 " (by decide)

/-! ### Detections and `detect_text_fields`
(`ocr_support_file_heic.py` lines 72-87, `ocr_thai_id_card_easyocr.py`
lines 65-80; the loop body and the sort are identical in both variants) -/

/-- An `xyxy` bounding box, as the integer-cast coordinates the source
extracts from the detector output. -/
structure Box where
  x1 : Int
  y1 : Int
  x2 : Int
  y2 : Int
deriving Repr, DecidableEq

/-- One raw field detection after the class-id to label lookup:
`{'box': box, 'label': label, 'confidence': confidence}`. -/
structure Detection where
  box : Box
  label : String
  confidence : Rat
deriving Repr, DecidableEq

/-- One iteration of the dedup loop on the `best_detections` dict
(modelled as an insertion-ordered association list keyed by label):
`if label not in best_detections or confidence > best_detections[label]['confidence']`. -/
def insertBest (d : Detection) : List Detection → List Detection
  | [] => [d]
  | e :: rest =>
    if e.label = d.label then
      (if e.confidence < d.confidence then d else e) :: rest
    else e :: insertBest d rest

/-- The `best_detections` dict after the whole loop, in insertion order. -/
def bestDetections (raws : List Detection) : List Detection :=
  raws.foldl (fun m d => insertBest d m) []

/-- The sort key of `sorted(..., key=lambda d: (d['box'][1], d['box'][0]))`:
lexicographic on (y1, x1). -/
def detLe (a b : Detection) : Bool :=
  decide (a.box.y1 < b.box.y1 ∨ (a.box.y1 = b.box.y1 ∧ a.box.x1 ≤ b.box.x1))

/-- The filtered, sorted detection list returned by `detect_text_fields`
for a given raw detector output.  Python's `sorted` guarantees exactly a
stable sort by the key; it is modelled by a stable insertion sort on the
same key. -/
def filterBestFields (raws : List Detection) : List Detection :=
  List.insertionSort (fun a b => detLe a b = true) (bestDetections raws)

/-- What one dedup step does to the (at most one) entry of a given label:
first detection is kept, a strictly greater confidence replaces it. -/
def pickStep (cur : List Detection) (d : Detection) : List Detection :=
  match cur with
  | [] => [d]
  | b :: _ => [if b.confidence < d.confidence then d else b]

theorem filter_insertBest (d : Detection) (m : List Detection) (L : String)
    (hm : (m.filter (fun e => e.label = L)).length ≤ 1) :
    (insertBest d m).filter (fun e => e.label = L) =
      if d.label = L then pickStep (m.filter (fun e => e.label = L)) d
      else m.filter (fun e => e.label = L) := by
  induction m with
  | nil =>
    by_cases hd : d.label = L <;> simp [insertBest, pickStep, hd]
  | cons e rest ih =>
    by_cases he : e.label = d.label
    · by_cases hd : d.label = L
      · have heL : e.label = L := by rw [he]; exact hd
        have hefL : rest.filter (fun e => e.label = L) = [] := by
          have hcons : (e :: rest).filter (fun e => e.label = L) =
              e :: rest.filter (fun e => e.label = L) := by
            simp [List.filter_cons, heL]
          rw [hcons] at hm
          simp only [List.length_cons] at hm
          exact List.eq_nil_of_length_eq_zero (by omega)
        have hmf : (e :: rest).filter (fun e => e.label = L) = [e] := by
          simp [List.filter_cons, heL, hefL]
        rw [hmf, if_pos hd]
        by_cases hc : e.confidence < d.confidence
        · have hins : insertBest d (e :: rest) = d :: rest := by
            simp [insertBest, he, hc]
          rw [hins]
          simp [List.filter_cons, hd, hefL, pickStep, hc]
        · have hins : insertBest d (e :: rest) = e :: rest := by
            simp [insertBest, he, hc]
          rw [hins]
          simp [List.filter_cons, heL, hefL, pickStep, hc]
      · have hel : ¬ e.label = L := by rw [he]; exact hd
        rw [if_neg hd]
        by_cases hc : e.confidence < d.confidence
        · have hins : insertBest d (e :: rest) = d :: rest := by
            simp [insertBest, he, hc]
          rw [hins]
          simp [List.filter_cons, hd, hel]
        · have hins : insertBest d (e :: rest) = e :: rest := by
            simp [insertBest, he, hc]
          rw [hins]
    · have hins : insertBest d (e :: rest) = e :: insertBest d rest := by
        simp [insertBest, he]
      by_cases hel : e.label = L
      · have hd : ¬ d.label = L := fun h => he (by rw [hel, h])
        have hm' : (rest.filter (fun e => e.label = L)).length ≤ 1 := by
          have hcons : (e :: rest).filter (fun e => e.label = L) =
              e :: rest.filter (fun e => e.label = L) := by
            simp [List.filter_cons, hel]
          rw [hcons] at hm
          simp only [List.length_cons] at hm
          omega
        rw [hins, if_neg hd]
        have hl : (e :: insertBest d rest).filter (fun e => e.label = L) =
            e :: (insertBest d rest).filter (fun e => e.label = L) := by
          simp [List.filter_cons, hel]
        have hr : (e :: rest).filter (fun e => e.label = L) =
            e :: rest.filter (fun e => e.label = L) := by
          simp [List.filter_cons, hel]
        rw [hl, hr, ih hm', if_neg hd]
      · have hm' : (rest.filter (fun e => e.label = L)).length ≤ 1 := by
          have hcons : (e :: rest).filter (fun e => e.label = L) =
              rest.filter (fun e => e.label = L) := by
            simp [List.filter_cons, hel]
          rwa [hcons] at hm
        rw [hins]
        have hl : (e :: insertBest d rest).filter (fun e => e.label = L) =
            (insertBest d rest).filter (fun e => e.label = L) := by
          simp [List.filter_cons, hel]
        have hr : (e :: rest).filter (fun e => e.label = L) =
            rest.filter (fun e => e.label = L) := by
          simp [List.filter_cons, hel]
        rw [hl, hr, ih hm']

theorem filter_insertBest_len (d : Detection) (m : List Detection)
    (hm : ∀ K : String, (m.filter (fun e => e.label = K)).length ≤ 1) :
    ∀ K : String, ((insertBest d m).filter (fun e => e.label = K)).length ≤ 1 := by
  intro K
  rw [filter_insertBest d m K (hm K)]
  by_cases hd : d.label = K
  · rw [if_pos hd]
    rcases hf : m.filter (fun e => e.label = K) with _ | ⟨b, t⟩ <;>
      rw [hf] <;> simp [pickStep]
  · rw [if_neg hd]
    exact hm K

theorem foldl_insertBest_filter (raws : List Detection) (m : List Detection)
    (L : String)
    (hm : ∀ K : String, (m.filter (fun e => e.label = K)).length ≤ 1) :
    (raws.foldl (fun m d => insertBest d m) m).filter (fun e => e.label = L) =
      (raws.filter (fun d => d.label = L)).foldl pickStep
        (m.filter (fun e => e.label = L)) := by
  induction raws generalizing m with
  | nil => rfl
  | cons d rest ih =>
    simp only [List.foldl_cons]
    rw [ih _ (filter_insertBest_len d m hm), filter_insertBest d m L (hm L)]
    by_cases hd : d.label = L
    · rw [if_pos hd]
      simp [List.filter_cons, hd]
    · rw [if_neg hd]
      simp [List.filter_cons, hd]

/-- The survivor of the dedup loop within one label group, starting from a
kept detection `b`. -/
def pick1 (b : Detection) : List Detection → Detection
  | [] => b
  | d :: rest => pick1 (if b.confidence < d.confidence then d else b) rest

theorem foldl_pickStep_cons (b : Detection) (gs : List Detection) :
    gs.foldl pickStep [b] = [pick1 b gs] := by
  induction gs generalizing b with
  | nil => rfl
  | cons d rest ih =>
    simp only [List.foldl_cons, pickStep, pick1]
    exact ih _

theorem pick1_spec (gs : List Detection) (b : Detection) :
    b.confidence ≤ (pick1 b gs).confidence ∧
    (∀ e ∈ gs, e.confidence ≤ (pick1 b gs).confidence) ∧
    (pick1 b gs = b ∨
      ∃ pre post, gs = pre ++ (pick1 b gs) :: post ∧
        b.confidence < (pick1 b gs).confidence ∧
        ∀ e ∈ pre, e.confidence < (pick1 b gs).confidence) := by
  induction gs generalizing b with
  | nil => exact ⟨le_refl _, by simp, Or.inl rfl⟩
  | cons d rest ih =>
    by_cases hbd : b.confidence < d.confidence
    · have hred : pick1 b (d :: rest) = pick1 d rest := by
        simp [pick1, hbd]
      obtain ⟨ih1, ih2, ih3⟩ := ih d
      rw [hred]
      refine ⟨le_trans (le_of_lt hbd) ih1, ?_, ?_⟩
      · intro e he
        rcases List.mem_cons.mp he with rfl | he'
        · exact ih1
        · exact ih2 e he'
      · rcases ih3 with h | ⟨pre, post, hsplit, hlt, hpre⟩
        · right
          exact ⟨[], rest, by rw [h]; rfl, by rw [h]; exact hbd, by simp⟩
        · right
          refine ⟨d :: pre, post, by rw [List.cons_append, ← hsplit],
            lt_trans hbd hlt, ?_⟩
          intro e he
          rcases List.mem_cons.mp he with rfl | he'
          · exact hlt
          · exact hpre e he'
    · have hred : pick1 b (d :: rest) = pick1 b rest := by
        simp [pick1, hbd]
      obtain ⟨ih1, ih2, ih3⟩ := ih b
      rw [hred]
      refine ⟨ih1, ?_, ?_⟩
      · intro e he
        rcases List.mem_cons.mp he with rfl | he'
        · exact le_trans (not_lt.mp hbd) ih1
        · exact ih2 e he'
      · rcases ih3 with h | ⟨pre, post, hsplit, hlt, hpre⟩
        · exact Or.inl h
        · right
          refine ⟨d :: pre, post, by rw [List.cons_append, ← hsplit], hlt, ?_⟩
          intro e he
          rcases List.mem_cons.mp he with rfl | he'
          · exact lt_of_le_of_lt (not_lt.mp hbd) hlt
          · exact hpre e he'

/-- Claim C2: for every raw detection sequence and label, `detect_text_fields`
keeps exactly one detection per label present in the input; it is a member of
the label group, every earlier member of the group has strictly smaller
confidence and every later member has smaller-or-equal confidence (so its
confidence is the group maximum and the first detection attaining it is the
one kept); labels absent from the input do not appear. -/
theorem C2_best_detection_per_label (raws : List Detection) (L : String) :
    (raws.filter (fun d => d.label = L) = [] →
      (filterBestFields raws).filter (fun e => e.label = L) = []) ∧
    (raws.filter (fun d => d.label = L) ≠ [] →
      ∃ d pre post,
        (filterBestFields raws).filter (fun e => e.label = L) = [d] ∧
        raws.filter (fun x => x.label = L) = pre ++ d :: post ∧
        (∀ e ∈ pre, e.confidence < d.confidence) ∧
        (∀ e ∈ post, e.confidence ≤ d.confidence)) := by
  have hbase : ∀ K : String,
      (([] : List Detection).filter (fun e => e.label = K)).length ≤ 1 := by
    intro K; simp
  have hperm : ∀ P : Detection → Bool,
      ((filterBestFields raws).filter P).Perm ((bestDetections raws).filter P) :=
    fun P => List.Perm.filter P
      (List.perm_insertionSort (fun a b => detLe a b = true) (bestDetections raws))
  constructor
  · intro hg
    have hb : (bestDetections raws).filter (fun e => e.label = L) = [] := by
      unfold bestDetections
      rw [foldl_insertBest_filter raws [] L hbase, hg]
      rfl
    have h2 := hperm (fun e => decide (e.label = L))
    rw [hb] at h2
    exact List.Perm.eq_nil h2
  · intro hne
    rcases hg : raws.filter (fun d => d.label = L) with _ | ⟨g, gs⟩
    · exact absurd hg hne
    have hb : (bestDetections raws).filter (fun e => e.label = L) =
        [pick1 g gs] := by
      unfold bestDetections
      rw [foldl_insertBest_filter raws [] L hbase, hg]
      simp only [List.filter_nil, List.foldl_cons]
      exact foldl_pickStep_cons g gs
    have hs : (filterBestFields raws).filter (fun e => e.label = L) =
        [pick1 g gs] := by
      have h2 := hperm (fun e => decide (e.label = L))
      rw [hb] at h2
      exact List.perm_singleton.mp h2
    obtain ⟨h1, h2, h3⟩ := pick1_spec gs g
    rcases h3 with hcase | ⟨pre, post, hsplit, hlt, hpre⟩
    · refine ⟨pick1 g gs, [], gs, hs, ?_, by simp, h2⟩
      rw [hg, hcase]
      rfl
    · refine ⟨pick1 g gs, g :: pre, post, hs, ?_, ?_, ?_⟩
      · rw [hg, List.cons_append, ← hsplit]
      · intro e he
        rcases List.mem_cons.mp he with rfl | he'
        · exact hlt
        · exact hpre e he'
      · intro e he
        refine h2 e ?_
        rw [hsplit]
        exact List.mem_append.mpr (Or.inr (List.mem_cons.mpr (Or.inr he)))

/-- Witness for `C2_best_detection_per_label`: two raw detections share the
label "id_card"; the second, strictly more confident one survives. -/
theorem C2_best_detection_per_label_witness :
    ∃ d pre post,
      (filterBestFields
          [⟨⟨0, 0, 10, 10⟩, "id_card", 0⟩,
           ⟨⟨1, 1, 11, 11⟩, "id_card", 1⟩]).filter
        (fun e => e.label = "id_card") = [d] ∧
      ([⟨⟨0, 0, 10, 10⟩, "id_card", 0⟩,
        ⟨⟨1, 1, 11, 11⟩, "id_card", 1⟩] : List Detection).filter
        (fun x => x.label = "id_card") = pre ++ d :: post ∧
      (∀ e ∈ pre, e.confidence < d.confidence) ∧
      (∀ e ∈ post, e.confidence ≤ d.confidence) :=
  (C2_best_detection_per_label
    [⟨⟨0, 0, 10, 10⟩, "id_card", 0⟩, ⟨⟨1, 1, 11, 11⟩, "id_card", 1⟩]
    "id_card").2 (by decide)

theorem detLe_trans : ∀ a b c : Detection,
    detLe a b = true → detLe b c = true → detLe a c = true := by
  intro a b c hab hbc
  simp only [detLe, decide_eq_true_eq] at hab hbc ⊢
  omega

theorem detLe_total : ∀ a b : Detection, (detLe a b || detLe b a) = true := by
  intro a b
  simp only [detLe, Bool.or_eq_true, decide_eq_true_eq]
  omega

instance : IsTrans Detection (fun a b => detLe a b = true) :=
  ⟨detLe_trans⟩

instance : IsTotal Detection (fun a b => detLe a b = true) :=
  ⟨fun a b => by simpa only [Bool.or_eq_true] using detLe_total a b⟩

/-- Claim C5: the detection sequence returned by `detect_text_fields` is
ordered by top edge `y1` ascending, then left edge `x1` ascending; on the
spec's three boxes with `y1` = {50, 50, 10} and `x1` = {30, 5, 0} the output
order is y1=10/x1=0, then y1=50/x1=5, then y1=50/x1=30. -/
theorem C5_reading_order :
    (∀ raws : List Detection,
      (filterBestFields raws).Pairwise (fun a b =>
        a.box.y1 < b.box.y1 ∨ (a.box.y1 = b.box.y1 ∧ a.box.x1 ≤ b.box.x1))) ∧
    filterBestFields
        [⟨⟨30, 50, 130, 60⟩, "first_name_en", 3⟩,
         ⟨⟨5, 50, 25, 60⟩, "prefix_name_en", 2⟩,
         ⟨⟨0, 10, 90, 20⟩, "id_card", 1⟩] =
      [⟨⟨0, 10, 90, 20⟩, "id_card", 1⟩,
       ⟨⟨5, 50, 25, 60⟩, "prefix_name_en", 2⟩,
       ⟨⟨30, 50, 130, 60⟩, "first_name_en", 3⟩] := by
  constructor
  · intro raws
    have h := List.sorted_insertionSort (fun a b => detLe a b = true)
      (bestDetections raws)
    exact h.imp (fun hab => by
      simpa only [detLe, decide_eq_true_eq] using hab)
  · decide

/-! ### Images and `crop_card`
(`ocr_support_file_heic.py` lines 49-70, `ocr_thai_id_card_easyocr.py`
lines 40-63) -/

/-- A 3-channel image: height, width, and a (b, g, r) value per pixel. -/
structure Img where
  h : Nat
  w : Nat
  pix : Nat → Nat → Nat × Nat × Nat

/-- OpenCV `BGR2GRAY` luminance of one (b, g, r) pixel, in OpenCV's fixed
point arithmetic: `(1868*B + 9617*G + 4899*R + 2^13) >> 14`. -/
def grayVal (p : Nat × Nat × Nat) : Nat :=
  (1868 * p.1 + 9617 * p.2.1 + 4899 * p.2.2 + 8192) / 16384

/-- `cv2.cvtColor(_, BGR2GRAY)` followed by `cv2.cvtColor(_, GRAY2BGR)`:
the luminance replicated over the three channels. -/
def grayBGR (img : Img) : Img :=
  { h := img.h, w := img.w,
    pix := fun i j =>
      (grayVal (img.pix i j), grayVal (img.pix i j), grayVal (img.pix i j)) }

/-- The keyword arguments the source passes to a YOLO detector call. -/
structure DetectorParams where
  conf : Rat
  iou : Option Rat

/-- `np.argmax`: the first index attaining the maximum of the list. -/
def argmaxIdx : List Rat → Nat
  | [] => 0
  | [_] => 0
  | a :: b :: rest =>
    let j := argmaxIdx (b :: rest)
    if a < (b :: rest).getD j 0 then j + 1 else 0

/-- The crop `img[y1:y2, x1:x2]` after the source's own clipping
`y1,y2 = max(0,y1), min(h,y2)` and `x1,x2 = max(0,x1), min(w,x2)`. -/
def clipCrop (img : Img) (b : Box) : Img :=
  let y1 : Int := max 0 b.y1
  let y2 : Int := min (img.h : Int) b.y2
  let x1 : Int := max 0 b.x1
  let x2 : Int := min (img.w : Int) b.x2
  { h := (y2 - y1).toNat, w := (x2 - x1).toNat,
    pix := fun i j => img.pix (y1.toNat + i) (x1.toNat + j) }

/-- `ndarray.size` of an h×w×3 image. -/
def imgSize (img : Img) : Nat :=
  img.h * img.w * 3

/-- `crop_card` of the pytesseract variant: detect on the
grayscale-replicated image (conf=0.25), pick the highest-confidence box,
clip it, and crop FROM THE ORIGINAL COLOR image.  A failed decode
(`cv2.imread` returning `None`) yields `(None, None)`. -/
def crop_card_heic (cardDet : Img → DetectorParams → List (Box × Rat))
    (decoded : Option Img) : Option Img × Option (List (Box × Rat)) :=
  match decoded with
  | none => (none, none)
  | some img =>
    let results := cardDet (grayBGR img) ⟨1/4, none⟩
    if results.length = 0 then (none, some results)
    else
      let idx := argmaxIdx (results.map (fun r => r.2))
      let best := (results.map (fun r => r.1)).getD idx ⟨0, 0, 0, 0⟩
      let cropped := clipCrop img best
      if 0 < imgSize cropped then (some cropped, some results)
      else (none, some results)

/-- `crop_card` of the EasyOCR variant: the decoded image is overwritten by
its grayscale-replicated version before detection (conf=0.25, iou=0.25), so
the crop is taken from the GRAYSCALE image. -/
def crop_card_easyocr (cardDet : Img → DetectorParams → List (Box × Rat))
    (decoded : Option Img) : Option Img × Option (List (Box × Rat)) :=
  match decoded with
  | none => (none, none)
  | some img =>
    let imgGray := grayBGR img
    let results := cardDet imgGray ⟨1/4, some (1/4)⟩
    if results.length = 0 then (none, some results)
    else
      let idx := argmaxIdx (results.map (fun r => r.2))
      let best := (results.map (fun r => r.1)).getD idx ⟨0, 0, 0, 0⟩
      let cropped := clipCrop imgGray best
      if 0 < imgSize cropped then (some cropped, some results)
      else (none, some results)

theorem clipCrop_grayBGR (img : Img) (b : Box) :
    clipCrop (grayBGR img) b = grayBGR (clipCrop img b) :=
  rfl

/-- A 1×1 pure-red (BGR = (0,0,255)) test image. -/
def img1 : Img :=
  { h := 1, w := 1, pix := fun _ _ => (0, 0, 255) }

/-- A card detector returning one full-frame box with confidence 1,
regardless of input image and parameters. -/
def cdetConst : Img → DetectorParams → List (Box × Rat) :=
  fun _ _ => [(⟨0, 0, 1, 1⟩, 1)]

/-- Claim C9 counterexample: on the same decoded 1×1 red image, with a
detector whose output does not depend on its parameters (so both variants
see identical detector outputs), the pytesseract variant's crop keeps the
original color pixel (0,0,255) while the EasyOCR variant's crop holds the
grayscale pixel (76,76,76): the two variants do NOT produce the same
cropped card image. -/
theorem C9_counterexample :
    Option.map (fun c => c.pix 0 0) (crop_card_heic cdetConst (some img1)).1 =
      some (0, 0, 255) ∧
    Option.map (fun c => c.pix 0 0) (crop_card_easyocr cdetConst (some img1)).1 =
      some (76, 76, 76) ∧
    Option.map (fun c => c.pix 0 0) (crop_card_heic cdetConst (some img1)).1 ≠
      Option.map (fun c => c.pix 0 0) (crop_card_easyocr cdetConst (some img1)).1 := by
  refine ⟨rfl, rfl, ?_⟩
  intro h
  rw [show Option.map (fun c => c.pix 0 0) (crop_card_heic cdetConst (some img1)).1 =
      some ((0 : Nat), (0 : Nat), (255 : Nat)) from rfl,
    show Option.map (fun c => c.pix 0 0) (crop_card_easyocr cdetConst (some img1)).1 =
      some ((76 : Nat), (76 : Nat), (76 : Nat)) from rfl] at h
  simp at h

/-- Claim C9 (amended): given identical detector outputs on the same decoded
image, the two `crop_card` variants return the same detection results and
select the same clipped box, but the EasyOCR variant's cropped card is the
grayscale-replicated version of the pytesseract variant's cropped card (the
pytesseract variant crops from the original color image, the EasyOCR variant
from the grayscale image it fed the detector). -/
theorem C9_crop_card_amended (img : Img)
    (cardDet : Img → DetectorParams → List (Box × Rat))
    (hsame : cardDet (grayBGR img) ⟨1/4, none⟩ =
      cardDet (grayBGR img) ⟨1/4, some (1/4)⟩) :
    (crop_card_easyocr cardDet (some img)).1 =
      Option.map grayBGR (crop_card_heic cardDet (some img)).1 ∧
    (crop_card_easyocr cardDet (some img)).2 =
      (crop_card_heic cardDet (some img)).2 := by
  unfold crop_card_easyocr crop_card_heic
  dsimp only
  rw [← hsame]
  by_cases hlen : (cardDet (grayBGR img) ⟨1/4, none⟩).length = 0
  · rw [if_pos hlen, if_pos hlen]
    exact ⟨rfl, rfl⟩
  · rw [if_neg hlen, if_neg hlen]
    have hsz : imgSize (clipCrop (grayBGR img)
        ((List.map (fun r => r.1) (cardDet (grayBGR img) ⟨1/4, none⟩)).getD
          (argmaxIdx (List.map (fun r => r.2) (cardDet (grayBGR img) ⟨1/4, none⟩)))
          ⟨0, 0, 0, 0⟩)) =
        imgSize (clipCrop img
        ((List.map (fun r => r.1) (cardDet (grayBGR img) ⟨1/4, none⟩)).getD
          (argmaxIdx (List.map (fun r => r.2) (cardDet (grayBGR img) ⟨1/4, none⟩)))
          ⟨0, 0, 0, 0⟩)) := rfl
    rw [hsz]
    by_cases hpos : 0 < imgSize (clipCrop img
        ((List.map (fun r => r.1) (cardDet (grayBGR img) ⟨1/4, none⟩)).getD
          (argmaxIdx (List.map (fun r => r.2) (cardDet (grayBGR img) ⟨1/4, none⟩)))
          ⟨0, 0, 0, 0⟩))
    · rw [if_pos hpos, if_pos hpos]
      exact ⟨congrArg some (clipCrop_grayBGR img _), rfl⟩
    · rw [if_neg hpos, if_neg hpos]
      exact ⟨rfl, rfl⟩

/-- Witness for `C9_crop_card_amended` with the constant detector. -/
theorem C9_crop_card_amended_witness :
    (crop_card_easyocr cdetConst (some img1)).1 =
      Option.map grayBGR (crop_card_heic cdetConst (some img1)).1 ∧
    (crop_card_easyocr cdetConst (some img1)).2 =
      (crop_card_heic cdetConst (some img1)).2 :=
  C9_crop_card_amended img1 cdetConst rfl

/-! ### `read_text_from_fields`
(`ocr_support_file_heic.py` lines 89-105, `ocr_thai_id_card_easyocr.py`
lines 82-95) -/

/-- Length of a numpy slice `start:stop` along an axis of length `n`
(negative indices count from the end, then both ends are clamped). -/
def sliceLen (n : Nat) (s e : Int) : Nat :=
  let s2 : Int := if s < 0 then max 0 ((n : Int) + s) else min s (n : Int)
  let e2 : Int := if e < 0 then max 0 ((n : Int) + e) else min e (n : Int)
  (e2 - s2).toNat

/-- `.size` of the field slice `img[box[1]:box[3], box[0]:box[2]]` of an
image of height `hgt`, width `wid` and 3 channels. -/
def regionSize (hgt wid : Nat) (b : Box) : Nat :=
  sliceLen hgt b.y1 b.y2 * sliceLen wid b.x1 b.x2 * 3

/-- `th_labels` of the pytesseract variant (line 92). -/
def thLabelsHeic : List String :=
  ["prefix_name_th", "first_name_th", "last_name_th"]

/-- `en_labels` of the pytesseract variant (line 93). -/
def enLabelsHeic : List String :=
  ["prefix_name_en", "first_name_en", "last_name_en"]

/-- The `lang=` argument the pytesseract variant passes for a label. -/
def langForHeic (label : String) : String :=
  if label ∈ thLabelsHeic then "tha"
  else if label ∈ enLabelsHeic then "eng"
  else "tha+eng"

/-- The three preloaded EasyOCR readers. -/
inductive OcrReader
  | th
  | en
  | mixed
deriving Repr, DecidableEq

/-- `th_labels` of the EasyOCR variant (line 85): also religion and the
Thai-formatted dates. -/
def thLabelsEasy : List String :=
  ["prefix_name_th", "first_name_th", "last_name_th", "date_of_birth_th",
   "date_of_expity_th", "religion"]

/-- `en_labels` of the EasyOCR variant (line 86). -/
def enLabelsEasy : List String :=
  ["prefix_name_en", "first_name_en", "last_name_en", "date_of_birth_en",
   "date_of_expity_en"]

/-- The reader the EasyOCR variant selects for a label. -/
def readerForEasy (label : String) : OcrReader :=
  if label ∈ thLabelsEasy then OcrReader.th
  else if label ∈ enLabelsEasy then OcrReader.en
  else OcrReader.mixed

/-- One loop iteration of the pytesseract `read_text_from_fields`: slice the
field region; if its size is positive, call the OCR engine (the `ocr` oracle
models `pytesseract.image_to_string` on the region with the selected
language), strip, and if non-empty store the text with newline/form-feed
characters removed.  The second component records the labels whose region
was passed to the OCR engine. -/
def readStepHeic (hgt wid : Nat) (ocr : Box → String → String)
    (acc : List (String × String) × List String) (f : Detection) :
    List (String × String) × List String :=
  if 0 < regionSize hgt wid f.box then
    (let extracted := pyStrip (ocr f.box (langForHeic f.label))
     if extracted ≠ "" then
       updIns acc.1 f.label (stripNewlineFormfeed extracted)
     else acc.1,
     acc.2 ++ [f.label])
  else acc

/-- `read_text_from_fields` of the pytesseract variant over a cropped card
of height `hgt` and width `wid`. -/
def read_text_from_fields_heic (hgt wid : Nat) (ocr : Box → String → String)
    (fields : List Detection) : List (String × String) × List String :=
  fields.foldl (readStepHeic hgt wid ocr) ([], [])

/-- One loop iteration of the EasyOCR `read_text_from_fields`: slice the
field region; if its size is positive, call the selected reader (the
`readtext` oracle models `reader.readtext(region, detail=0,
paragraph=False)`), and if the result list is non-empty store the strings
joined by a single space. -/
def readStepEasy (hgt wid : Nat) (readtext : Box → OcrReader → List String)
    (acc : List (String × String) × List String) (f : Detection) :
    List (String × String) × List String :=
  if 0 < regionSize hgt wid f.box then
    (let result := readtext f.box (readerForEasy f.label)
     if result ≠ [] then
       updIns acc.1 f.label (String.intercalate " " result)
     else acc.1,
     acc.2 ++ [f.label])
  else acc

/-- `read_text_from_fields` of the EasyOCR variant. -/
def read_text_from_fields_easyocr (hgt wid : Nat)
    (readtext : Box → OcrReader → List String) (fields : List Detection) :
    List (String × String) × List String :=
  fields.foldl (readStepEasy hgt wid readtext) ([], [])

/-- The update the pytesseract read loop applies to the `extracted_data`
dict for a positive-area field. -/
def uReadHeic (ocr : Box → String → String) (m : List (String × String))
    (g : Detection) : List (String × String) :=
  if pyStrip (ocr g.box (langForHeic g.label)) ≠ "" then
    updIns m g.label (stripNewlineFormfeed (pyStrip (ocr g.box (langForHeic g.label))))
  else m

/-- The update the EasyOCR read loop applies to the `extracted_data` dict
for a positive-area field. -/
def uReadEasy (readtext : Box → OcrReader → List String)
    (m : List (String × String)) (g : Detection) : List (String × String) :=
  if readtext g.box (readerForEasy g.label) ≠ [] then
    updIns m g.label (String.intercalate " " (readtext g.box (readerForEasy g.label)))
  else m

theorem foldl_sizeStep_invoked (hgt wid : Nat)
    (step : (List (String × String) × List String) → Detection →
      List (String × String) × List String)
    (u : List (String × String) → Detection → List (String × String))
    (hstep : ∀ a g, step a g =
      if 0 < regionSize hgt wid g.box then (u a.1 g, a.2 ++ [g.label]) else a)
    (fields : List Detection) (acc : List (String × String) × List String) :
    (fields.foldl step acc).2 =
      acc.2 ++ (fields.filter (fun g => 0 < regionSize hgt wid g.box)).map
        (fun g => g.label) := by
  induction fields generalizing acc with
  | nil => simp
  | cons g rest ih =>
    simp only [List.foldl_cons]
    rw [hstep]
    by_cases hs : 0 < regionSize hgt wid g.box
    · rw [if_pos hs, ih]
      simp [List.filter_cons, hs, List.append_assoc]
    · rw [if_neg hs, ih]
      simp [List.filter_cons, hs]

theorem foldl_sizeStep_keys (hgt wid : Nat)
    (step : (List (String × String) × List String) → Detection →
      List (String × String) × List String)
    (u : List (String × String) → Detection → List (String × String))
    (hstep : ∀ a g, step a g =
      if 0 < regionSize hgt wid g.box then (u a.1 g, a.2 ++ [g.label]) else a)
    (hu : ∀ m g l, g.label ≠ l → pyGet l m = none → pyGet l (u m g) = none)
    (fields : List Detection) (acc : List (String × String) × List String)
    (l : String) (hacc : pyGet l acc.1 = none)
    (hfields : ∀ g ∈ fields, 0 < regionSize hgt wid g.box → g.label ≠ l) :
    pyGet l (fields.foldl step acc).1 = none := by
  induction fields generalizing acc with
  | nil => exact hacc
  | cons g rest ih =>
    simp only [List.foldl_cons]
    rw [hstep]
    have hrest : ∀ q ∈ rest, 0 < regionSize hgt wid q.box → q.label ≠ l :=
      fun q hq => hfields q (by simp [hq])
    by_cases hs : 0 < regionSize hgt wid g.box
    · rw [if_pos hs]
      exact ih _ (hu acc.1 g l (hfields g (by simp) hs) hacc) hrest
    · rw [if_neg hs]
      exact ih acc hacc hrest

theorem foldl_sizeStep_skip (hgt wid : Nat)
    (step : (List (String × String) × List String) → Detection →
      List (String × String) × List String)
    (hstep0 : ∀ a g, ¬ 0 < regionSize hgt wid g.box → step a g = a)
    (fields : List Detection) (acc : List (String × String) × List String) :
    fields.foldl step acc =
      (fields.filter (fun g => 0 < regionSize hgt wid g.box)).foldl step acc := by
  induction fields generalizing acc with
  | nil => rfl
  | cons g rest ih =>
    simp only [List.foldl_cons]
    by_cases hs : 0 < regionSize hgt wid g.box
    · rw [List.filter_cons_of_pos (by simpa using hs), List.foldl_cons]
      exact ih (step acc g)
    · rw [hstep0 acc g hs, List.filter_cons_of_neg (by simpa using hs)]
      exact ih acc

/-- Claim C6: a field whose bounding box slices to a zero-area region of the
cropped card is skipped by both variants of `read_text_from_fields`: its
label is never passed to the OCR backend, it never appears in the resulting
`RawTextMap`, and the whole result equals the one computed from the
positive-area fields alone (the request does not fail). -/
theorem C6_zero_area_field_skipped (hgt wid : Nat) (ocr : Box → String → String)
    (readtext : Box → OcrReader → List String) (fields : List Detection)
    (hnd : (fields.map (fun f => f.label)).Nodup) (f : Detection)
    (hf : f ∈ fields) (hz : regionSize hgt wid f.box = 0) :
    (f.label ∉ (read_text_from_fields_heic hgt wid ocr fields).2 ∧
      pyGet f.label (read_text_from_fields_heic hgt wid ocr fields).1 = none ∧
      read_text_from_fields_heic hgt wid ocr fields =
        read_text_from_fields_heic hgt wid ocr
          (fields.filter (fun g => 0 < regionSize hgt wid g.box))) ∧
    (f.label ∉ (read_text_from_fields_easyocr hgt wid readtext fields).2 ∧
      pyGet f.label (read_text_from_fields_easyocr hgt wid readtext fields).1 =
        none ∧
      read_text_from_fields_easyocr hgt wid readtext fields =
        read_text_from_fields_easyocr hgt wid readtext
          (fields.filter (fun g => 0 < regionSize hgt wid g.box))) := by
  have hother : ∀ g ∈ fields, 0 < regionSize hgt wid g.box →
      g.label ≠ f.label := by
    intro g hg hpos heq
    have hgf : g = f := List.inj_on_of_nodup_map hnd hg hf heq
    rw [hgf, hz] at hpos
    omega
  have hnotmem : f.label ∉
      (fields.filter (fun g => 0 < regionSize hgt wid g.box)).map
        (fun g => g.label) := by
    intro hmem
    obtain ⟨g, hg, hgl⟩ := List.mem_map.mp hmem
    have hgf := List.mem_filter.mp hg
    exact hother g hgf.1 (by simpa using hgf.2) hgl
  have hstepH : ∀ (a : List (String × String) × List String) (g : Detection),
      readStepHeic hgt wid ocr a g =
        if 0 < regionSize hgt wid g.box then
          (uReadHeic ocr a.1 g, a.2 ++ [g.label])
        else a :=
    fun a g => rfl
  have hstepE : ∀ (a : List (String × String) × List String) (g : Detection),
      readStepEasy hgt wid readtext a g =
        if 0 < regionSize hgt wid g.box then
          (uReadEasy readtext a.1 g, a.2 ++ [g.label])
        else a :=
    fun a g => rfl
  have huH : ∀ (m : List (String × String)) (g : Detection) (l : String),
      g.label ≠ l → pyGet l m = none → pyGet l (uReadHeic ocr m g) = none := by
    intro m g l hne hm
    rw [uReadHeic]
    split
    · rw [pyGet_updIns, if_neg hne]
      exact hm
    · exact hm
  have huE : ∀ (m : List (String × String)) (g : Detection) (l : String),
      g.label ≠ l → pyGet l m = none → pyGet l (uReadEasy readtext m g) = none := by
    intro m g l hne hm
    rw [uReadEasy]
    split
    · rw [pyGet_updIns, if_neg hne]
      exact hm
    · exact hm
  refine ⟨⟨?_, ?_, ?_⟩, ⟨?_, ?_, ?_⟩⟩
  · rw [read_text_from_fields_heic,
      foldl_sizeStep_invoked hgt wid _ (uReadHeic ocr) hstepH]
    simpa using hnotmem
  · exact foldl_sizeStep_keys hgt wid _ (uReadHeic ocr) hstepH huH fields
      ([], []) f.label rfl hother
  · exact foldl_sizeStep_skip hgt wid _
      (fun a g hs => by rw [readStepHeic, if_neg hs]) fields ([], [])
  · rw [read_text_from_fields_easyocr,
      foldl_sizeStep_invoked hgt wid _ (uReadEasy readtext) hstepE]
    simpa using hnotmem
  · exact foldl_sizeStep_keys hgt wid _ (uReadEasy readtext) hstepE huE fields
      ([], []) f.label rfl hother
  · exact foldl_sizeStep_skip hgt wid _
      (fun a g hs => by rw [readStepEasy, if_neg hs]) fields ([], [])

/-- Witness for `C6_zero_area_field_skipped`: a field whose box has
`x1 = x2` slices to zero columns. -/
theorem C6_zero_area_field_skipped_witness :
    ("id_card" : String) ∉
      (read_text_from_fields_heic 100 100 (fun _ _ => "X")
        [⟨⟨0, 0, 0, 50⟩, "id_card", 1⟩]).2 ∧
    pyGet "id_card" (read_text_from_fields_heic 100 100 (fun _ _ => "X")
        [⟨⟨0, 0, 0, 50⟩, "id_card", 1⟩]).1 = none ∧
    read_text_from_fields_heic 100 100 (fun _ _ => "X")
        [⟨⟨0, 0, 0, 50⟩, "id_card", 1⟩] =
      read_text_from_fields_heic 100 100 (fun _ _ => "X")
        (([⟨⟨0, 0, 0, 50⟩, "id_card", 1⟩] : List Detection).filter
          (fun g => 0 < regionSize 100 100 g.box)) :=
  (C6_zero_area_field_skipped 100 100 (fun _ _ => "X") (fun _ _ => ["X"])
    [⟨⟨0, 0, 0, 50⟩, "id_card", 1⟩] (by decide) ⟨⟨0, 0, 0, 50⟩, "id_card", 1⟩
    (by decide) (by decide)).1

/-- Claim C7 counterexample: in the pytesseract variant the labels
`religion` and `date_of_birth_th` are not in that variant's `th_labels`, so
they are read with the combined `tha+eng` hint, not the Thai hint the claim
requires for Thai-script fields. -/
theorem C7_counterexample :
    langForHeic "religion" = "tha+eng" ∧ langForHeic "religion" ≠ "tha" ∧
    langForHeic "date_of_birth_th" = "tha+eng" ∧
    langForHeic "date_of_birth_th" ≠ "tha" := by
  decide

/-- Claim C7 (amended): the EasyOCR variant's table is as the claim states
(Thai name components, religion and Thai-formatted dates → Thai reader;
English name components and English-formatted dates → English reader;
everything else, notably the ID number, → mixed reader).  The pytesseract
variant routes ONLY the three Thai name components to Thai and the three
English name components to English; every other label — including religion
and all date fields — gets the combined `tha+eng` hint. -/
theorem C7_language_table_amended :
    (∀ l : String, l ∈ thLabelsEasy → readerForEasy l = OcrReader.th) ∧
    (∀ l : String, l ∈ enLabelsEasy → readerForEasy l = OcrReader.en) ∧
    (∀ l : String, l ∉ thLabelsEasy → l ∉ enLabelsEasy →
      readerForEasy l = OcrReader.mixed) ∧
    (∀ l : String, l ∈ thLabelsHeic → langForHeic l = "tha") ∧
    (∀ l : String, l ∈ enLabelsHeic → langForHeic l = "eng") ∧
    (∀ l : String, l ∉ thLabelsHeic → l ∉ enLabelsHeic →
      langForHeic l = "tha+eng") ∧
    readerForEasy "id_card" = OcrReader.mixed ∧
    langForHeic "id_card" = "tha+eng" ∧
    langForHeic "religion" = "tha+eng" ∧
    langForHeic "date_of_birth_th" = "tha+eng" ∧
    langForHeic "date_of_expity_th" = "tha+eng" ∧
    langForHeic "date_of_birth_en" = "tha+eng" ∧
    langForHeic "date_of_expity_en" = "tha+eng" := by
  refine ⟨?_, ?_, ?_, ?_, ?_, ?_, ?_⟩
  · intro l hmem
    exact if_pos hmem
  · intro l hmem
    have hnth : l ∉ thLabelsEasy := by
      simp [enLabelsEasy] at hmem
      rcases hmem with rfl | rfl | rfl | rfl | rfl <;> decide
    rw [readerForEasy, if_neg hnth, if_pos hmem]
  · intro l h1 h2
    rw [readerForEasy, if_neg h1, if_neg h2]
  · intro l hmem
    exact if_pos hmem
  · intro l hmem
    have hnth : l ∉ thLabelsHeic := by
      simp [enLabelsHeic] at hmem
      rcases hmem with rfl | rfl | rfl <;> decide
    rw [langForHeic, if_neg hnth, if_pos hmem]
  · intro l h1 h2
    rw [langForHeic, if_neg h1, if_neg h2]
  · refine ⟨by decide, by decide, by decide, by decide, by decide, by decide,
      by decide⟩

/-- Witness for `C7_language_table_amended` at concrete labels. -/
theorem C7_language_table_amended_witness :
    readerForEasy "religion" = OcrReader.th ∧
    langForHeic "last_name_en" = "eng" ∧
    readerForEasy "id_card" = OcrReader.mixed ∧
    langForHeic "date_of_birth_th" = "tha+eng" := by
  obtain ⟨h1, h2, h3, h4, h5, h6, h7⟩ := C7_language_table_amended
  exact ⟨h1 "religion" (by decide), h5 "last_name_en" (by decide),
    h3 "id_card" (by decide) (by decide),
    h6 "date_of_birth_th" (by decide) (by decide)⟩

/-! ### `detect_text_fields` wrappers, `run_ocr_pipeline` and the endpoints
(`ocr_support_file_heic.py` lines 125-214, `ocr_thai_id_card_easyocr.py`
lines 103-171) -/

/-- `detect_text_fields` of the pytesseract variant on an optional cropped
card: a `None` card yields `([], None)`; otherwise the text detector (an
oracle, conf=0.25) runs and its raw detections are deduplicated and sorted.
The second component stands for the truthy `results` object. -/
def detect_text_fields_heic (textDet : Img → DetectorParams → List Detection)
    (cropped : Option Img) : List Detection × Option (List Detection) :=
  match cropped with
  | none => ([], none)
  | some img =>
    let raws := textDet img ⟨1/4, none⟩
    (filterBestFields raws, some raws)

/-- `detect_text_fields` of the EasyOCR variant (conf=0.01, iou=0.25). -/
def detect_text_fields_easyocr (textDet : Img → DetectorParams → List Detection)
    (cropped : Option Img) : List Detection × Option (List Detection) :=
  match cropped with
  | none => ([], none)
  | some img =>
    let raws := textDet img ⟨1/100, some (1/4)⟩
    (filterBestFields raws, some raws)

/-- An exception as seen at the request boundary: either a FastAPI
`HTTPException` with status code and detail, or any other exception carrying
its message. -/
inductive PyErr
  | http (status : Nat) (detail : String)
  | exn (msg : String)
deriving Repr, DecidableEq

/-- Outcomes of the three unguarded debug side effects of
`run_ocr_pipeline`: the two `save_plotted_image` calls and the final JSON
dump.  An `error` models the call raising an exception with that message. -/
structure SideFx where
  saveCardViz : Except String Unit
  saveTextViz : Except String Unit
  saveJson : Except String Unit

/-- Stage 3+4 of `run_ocr_pipeline` (pytesseract variant): read the fields,
map the entities, dump the JSON log, and return the final entities.  The
second component lists the debug artifacts successfully written. -/
def pipelineTailHeic (ocr : Box → String → String) (fx : SideFx)
    (cropped : Img) (fields : List Detection) (written : List String) :
    Except PyErr (List (String × String)) × List String :=
  let raw := (read_text_from_fields_heic cropped.h cropped.w ocr fields).1
  let finalEntities := map_entities raw
  match fx.saveJson with
  | Except.error m => (Except.error (PyErr.exn m), written)
  | Except.ok _ => (Except.ok finalEntities, written ++ ["json_snapshot"])

/-- Stage 2 of `run_ocr_pipeline` (pytesseract variant): detect the text
fields, save the annotated plot if the results object is truthy (it always
is when a card was cropped), then continue. -/
def pipelineStage2Heic (textDet : Img → DetectorParams → List Detection)
    (ocr : Box → String → String) (fx : SideFx) (cropped : Img)
    (written : List String) :
    Except PyErr (List (String × String)) × List String :=
  match detect_text_fields_heic textDet (some cropped) with
  | (fields, textResults) =>
    match textResults, fx.saveTextViz with
    | some _, Except.error m => (Except.error (PyErr.exn m), written)
    | some _, Except.ok _ =>
        pipelineTailHeic ocr fx cropped fields (written ++ ["text_plot"])
    | none, _ => pipelineTailHeic ocr fx cropped fields written

/-- After stage 1 of `run_ocr_pipeline`: fail with HTTP 400 when no card was
cropped, otherwise continue with stage 2. -/
def pipelineResumeHeic (textDet : Img → DetectorParams → List Detection)
    (ocr : Box → String → String) (fx : SideFx) (croppedOpt : Option Img)
    (written : List String) :
    Except PyErr (List (String × String)) × List String :=
  match croppedOpt with
  | none =>
    (Except.error (PyErr.http 400 "Could not detect an ID card in the image."),
      written)
  | some cropped => pipelineStage2Heic textDet ocr fx cropped written

/-- `run_ocr_pipeline` of the pytesseract variant: 503 when the models are
not loaded; crop the card; save the annotated card plot if the results
object is truthy; 400 when no card; detect fields; save their plot; read the
fields; map the entities; dump the JSON log; return the entities. -/
def run_ocr_pipeline_heic (modelsLoaded : Bool) (decoded : Option Img)
    (cardDet : Img → DetectorParams → List (Box × Rat))
    (textDet : Img → DetectorParams → List Detection)
    (ocr : Box → String → String) (fx : SideFx) :
    Except PyErr (List (String × String)) × List String :=
  if modelsLoaded then
    match crop_card_heic cardDet decoded with
    | (croppedOpt, none) => pipelineResumeHeic textDet ocr fx croppedOpt []
    | (croppedOpt, some _) =>
      match fx.saveCardViz with
      | Except.error m => (Except.error (PyErr.exn m), [])
      | Except.ok _ => pipelineResumeHeic textDet ocr fx croppedOpt ["card_plot"]
  else
    (Except.error (PyErr.http 503 "Models are not loaded. API is unavailable."),
      [])

/-- Stage 3+4 of `run_ocr_pipeline` (EasyOCR variant); `map_entities` is the
identity there. -/
def pipelineTailEasy (readtext : Box → OcrReader → List String) (fx : SideFx)
    (cropped : Img) (fields : List Detection) (written : List String) :
    Except PyErr (List (String × String)) × List String :=
  let raw := (read_text_from_fields_easyocr cropped.h cropped.w readtext fields).1
  let finalEntities := map_entities_easyocr raw
  match fx.saveJson with
  | Except.error m => (Except.error (PyErr.exn m), written)
  | Except.ok _ => (Except.ok finalEntities, written ++ ["json_snapshot"])

/-- Stage 2 of `run_ocr_pipeline` (EasyOCR variant). -/
def pipelineStage2Easy (textDet : Img → DetectorParams → List Detection)
    (readtext : Box → OcrReader → List String) (fx : SideFx) (cropped : Img)
    (written : List String) :
    Except PyErr (List (String × String)) × List String :=
  match detect_text_fields_easyocr textDet (some cropped) with
  | (fields, textResults) =>
    match textResults, fx.saveTextViz with
    | some _, Except.error m => (Except.error (PyErr.exn m), written)
    | some _, Except.ok _ =>
        pipelineTailEasy readtext fx cropped fields (written ++ ["text_plot"])
    | none, _ => pipelineTailEasy readtext fx cropped fields written

/-- After stage 1 of `run_ocr_pipeline` (EasyOCR variant). -/
def pipelineResumeEasy (textDet : Img → DetectorParams → List Detection)
    (readtext : Box → OcrReader → List String) (fx : SideFx)
    (croppedOpt : Option Img) (written : List String) :
    Except PyErr (List (String × String)) × List String :=
  match croppedOpt with
  | none =>
    (Except.error (PyErr.http 400 "Could not detect an ID card in the image."),
      written)
  | some cropped => pipelineStage2Easy textDet readtext fx cropped written

/-- `run_ocr_pipeline` of the EasyOCR variant. -/
def run_ocr_pipeline_easyocr (modelsLoaded : Bool) (decoded : Option Img)
    (cardDet : Img → DetectorParams → List (Box × Rat))
    (textDet : Img → DetectorParams → List Detection)
    (readtext : Box → OcrReader → List String) (fx : SideFx) :
    Except PyErr (List (String × String)) × List String :=
  if modelsLoaded then
    match crop_card_easyocr cardDet decoded with
    | (croppedOpt, none) => pipelineResumeEasy textDet readtext fx croppedOpt []
    | (croppedOpt, some _) =>
      match fx.saveCardViz with
      | Except.error m => (Except.error (PyErr.exn m), [])
      | Except.ok _ =>
        pipelineResumeEasy textDet readtext fx croppedOpt ["card_plot"]
  else
    (Except.error (PyErr.http 503 "Models are not loaded. API is unavailable."),
      [])

/-- Python `str()` of an exception: Starlette renders an `HTTPException` as
`"<status>: <detail>"`. -/
def pyStrOfErr : PyErr → String
  | PyErr.http s d => toString s ++ ": " ++ d
  | PyErr.exn m => m

/-- The `process_thai_id` endpoint of the pytesseract variant.  `pre` is the
outcome of saving the upload and the optional HEIC conversion.  Its
`try/except` has ONLY a blanket `except Exception` handler, and FastAPI's
`HTTPException` is an `Exception` subclass: every failure, including the
pipeline's own 503/400 `HTTPException`s, is re-raised as HTTP 500. -/
def process_thai_id_heic (pre : Except String Unit) (modelsLoaded : Bool)
    (decoded : Option Img)
    (cardDet : Img → DetectorParams → List (Box × Rat))
    (textDet : Img → DetectorParams → List Detection)
    (ocr : Box → String → String) (fx : SideFx) :
    Except PyErr (List (String × String)) :=
  let attempt : Except PyErr (List (String × String)) :=
    match pre with
    | Except.error m => Except.error (PyErr.exn m)
    | Except.ok _ =>
      (run_ocr_pipeline_heic modelsLoaded decoded cardDet textDet ocr fx).1
  match attempt with
  | Except.ok d => Except.ok d
  | Except.error e =>
    Except.error (PyErr.http 500
      ("An internal server error occurred: " ++ pyStrOfErr e))

/-- The `process_thai_id` endpoint of the EasyOCR variant: it re-raises
`HTTPException`s unchanged (`except HTTPException as e: raise e`) and wraps
only other exceptions into HTTP 500. -/
def process_thai_id_easyocr (pre : Except String Unit) (modelsLoaded : Bool)
    (decoded : Option Img)
    (cardDet : Img → DetectorParams → List (Box × Rat))
    (textDet : Img → DetectorParams → List Detection)
    (readtext : Box → OcrReader → List String) (fx : SideFx) :
    Except PyErr (List (String × String)) :=
  let attempt : Except PyErr (List (String × String)) :=
    match pre with
    | Except.error m => Except.error (PyErr.exn m)
    | Except.ok _ =>
      (run_ocr_pipeline_easyocr modelsLoaded decoded cardDet textDet readtext
        fx).1
  match attempt with
  | Except.ok d => Except.ok d
  | Except.error (PyErr.http s d) => Except.error (PyErr.http s d)
  | Except.error (PyErr.exn m) =>
    Except.error (PyErr.http 500 ("An internal server error occurred: " ++ m))

/-- A text detector returning no detections. -/
def tdetEmpty : Img → DetectorParams → List Detection :=
  fun _ _ => []

/-- An OCR oracle returning empty text. -/
def ocrEmpty : Box → String → String :=
  fun _ _ => ""

/-- An EasyOCR oracle returning no strings. -/
def readtextEmpty : Box → OcrReader → List String :=
  fun _ _ => []

/-- All three debug side effects succeed. -/
def fxAllOk : SideFx :=
  ⟨Except.ok (), Except.ok (), Except.ok ()⟩

/-- Card viz and text viz succeed; the JSON dump raises. -/
def fxJsonFail : SideFx :=
  ⟨Except.ok (), Except.ok (), Except.error "disk full"⟩

/-- Claim C1 evidence: in the pytesseract/HEIC variant the endpoint's only
handler is a blanket `except Exception`, which also catches the
`HTTPException(503)` / `HTTPException(400)` raised by `run_ocr_pipeline`
and re-raises them as HTTP 500 — clients see 500, not 503/400.  The EasyOCR
variant re-raises `HTTPException` first and returns the intended 503/400.
In all four cases the request fails with an error and no EntityMap. -/
theorem C1_endpoint_status :
    process_thai_id_heic (Except.ok ()) false none cdetConst tdetEmpty
        ocrEmpty fxAllOk =
      Except.error (PyErr.http 500
        "An internal server error occurred: 503: Models are not loaded. API is unavailable.") ∧
    process_thai_id_easyocr (Except.ok ()) false none cdetConst tdetEmpty
        readtextEmpty fxAllOk =
      Except.error (PyErr.http 503 "Models are not loaded. API is unavailable.") ∧
    process_thai_id_heic (Except.ok ()) true none cdetConst tdetEmpty
        ocrEmpty fxAllOk =
      Except.error (PyErr.http 500
        "An internal server error occurred: 400: Could not detect an ID card in the image.") ∧
    process_thai_id_easyocr (Except.ok ()) true none cdetConst tdetEmpty
        readtextEmpty fxAllOk =
      Except.error (PyErr.http 400 "Could not detect an ID card in the image.") := by
  refine ⟨rfl, rfl, rfl, rfl⟩

/-- Claim C10: when the image cannot be decoded (`cv2.imread` yields
`None`), `crop_card` of either variant returns no card and no detection
results, and `run_ocr_pipeline` fails with HTTP 400
"Could not detect an ID card in the image." — not an internal error — and
writes no artifact at all (in particular no stage-1 visualization). -/
theorem C10_decode_failure
    (cardDet : Img → DetectorParams → List (Box × Rat))
    (textDet : Img → DetectorParams → List Detection)
    (ocr : Box → String → String) (readtext : Box → OcrReader → List String)
    (fx : SideFx) :
    crop_card_heic cardDet none = (none, none) ∧
    crop_card_easyocr cardDet none = (none, none) ∧
    run_ocr_pipeline_heic true none cardDet textDet ocr fx =
      (Except.error (PyErr.http 400 "Could not detect an ID card in the image."),
        []) ∧
    run_ocr_pipeline_easyocr true none cardDet textDet readtext fx =
      (Except.error (PyErr.http 400 "Could not detect an ID card in the image."),
        []) :=
  ⟨rfl, rfl, rfl, rfl⟩

theorem crop_card_heic_some_results
    (cardDet : Img → DetectorParams → List (Box × Rat)) (decoded : Option Img)
    (h : (crop_card_heic cardDet decoded).1.isSome = true) :
    (crop_card_heic cardDet decoded).2.isSome = true := by
  match decoded with
  | none => simp [crop_card_heic] at h
  | some img =>
    unfold crop_card_heic at h ⊢
    dsimp only at h ⊢
    split_ifs at h ⊢ <;> simp_all

theorem crop_card_easyocr_some_results
    (cardDet : Img → DetectorParams → List (Box × Rat)) (decoded : Option Img)
    (h : (crop_card_easyocr cardDet decoded).1.isSome = true) :
    (crop_card_easyocr cardDet decoded).2.isSome = true := by
  match decoded with
  | none => simp [crop_card_easyocr] at h
  | some img =>
    unfold crop_card_easyocr at h ⊢
    dsimp only at h ⊢
    split_ifs at h ⊢ <;> simp_all

/-- Claim C8 counterexample: a pipeline run that succeeds end to end when
all debug writes succeed (returning the computed EntityMap) instead returns
the raised exception when only the JSON dump fails: the side-effect failure
aborts the pipeline. -/
theorem C8_counterexample :
    (run_ocr_pipeline_heic true (some img1) cdetConst tdetEmpty ocrEmpty
        fxAllOk).1 = Except.ok (map_entities []) ∧
    (run_ocr_pipeline_heic true (some img1) cdetConst tdetEmpty ocrEmpty
        fxJsonFail).1 = Except.error (PyErr.exn "disk full") ∧
    (run_ocr_pipeline_heic true (some img1) cdetConst tdetEmpty ocrEmpty
        fxJsonFail).1 ≠ Except.ok (map_entities []) := by
  refine ⟨rfl, rfl, ?_⟩
  intro h
  rw [show (run_ocr_pipeline_heic true (some img1) cdetConst tdetEmpty ocrEmpty
      fxJsonFail).1 = Except.error (PyErr.exn "disk full") from rfl] at h
  exact Except.noConfusion h

/-- Claim C8 (amended): the three debug writes of `run_ocr_pipeline` are not
guarded; when any of them raises (and control reaches it), the exception
propagates out of `run_ocr_pipeline` and the pipeline returns that error
instead of the EntityMap, in both variants. -/
theorem C8_side_effect_failure_aborts (decoded : Option Img)
    (cardDet : Img → DetectorParams → List (Box × Rat))
    (textDet : Img → DetectorParams → List Detection)
    (ocr : Box → String → String) (readtext : Box → OcrReader → List String)
    (fx : SideFx) (m : String) :
    ((crop_card_heic cardDet decoded).2.isSome = true →
      fx.saveCardViz = Except.error m →
      (run_ocr_pipeline_heic true decoded cardDet textDet ocr fx).1 =
        Except.error (PyErr.exn m)) ∧
    ((crop_card_heic cardDet decoded).1.isSome = true →
      fx.saveCardViz = Except.ok () → fx.saveTextViz = Except.error m →
      (run_ocr_pipeline_heic true decoded cardDet textDet ocr fx).1 =
        Except.error (PyErr.exn m)) ∧
    ((crop_card_heic cardDet decoded).1.isSome = true →
      fx.saveCardViz = Except.ok () → fx.saveTextViz = Except.ok () →
      fx.saveJson = Except.error m →
      (run_ocr_pipeline_heic true decoded cardDet textDet ocr fx).1 =
        Except.error (PyErr.exn m)) ∧
    ((crop_card_easyocr cardDet decoded).2.isSome = true →
      fx.saveCardViz = Except.error m →
      (run_ocr_pipeline_easyocr true decoded cardDet textDet readtext fx).1 =
        Except.error (PyErr.exn m)) ∧
    ((crop_card_easyocr cardDet decoded).1.isSome = true →
      fx.saveCardViz = Except.ok () → fx.saveTextViz = Except.error m →
      (run_ocr_pipeline_easyocr true decoded cardDet textDet readtext fx).1 =
        Except.error (PyErr.exn m)) ∧
    ((crop_card_easyocr cardDet decoded).1.isSome = true →
      fx.saveCardViz = Except.ok () → fx.saveTextViz = Except.ok () →
      fx.saveJson = Except.error m →
      (run_ocr_pipeline_easyocr true decoded cardDet textDet readtext fx).1 =
        Except.error (PyErr.exn m)) := by
  refine ⟨?_, ?_, ?_, ?_, ?_, ?_⟩
  · intro h2 hcv
    rcases hcrop : crop_card_heic cardDet decoded with ⟨c1, c2⟩
    rw [hcrop] at h2
    rcases c2 with _ | rs
    · simp at h2
    · unfold run_ocr_pipeline_heic
      rw [if_pos rfl, hcrop]
      dsimp only
      rw [hcv]
  · intro h1 hcv htv
    have h2 := crop_card_heic_some_results cardDet decoded h1
    rcases hcrop : crop_card_heic cardDet decoded with ⟨c1, c2⟩
    rw [hcrop] at h1 h2
    rcases c1 with _ | cropped
    · simp at h1
    rcases c2 with _ | rs
    · simp at h2
    unfold run_ocr_pipeline_heic
    rw [if_pos rfl, hcrop]
    dsimp only
    rw [hcv]
    unfold pipelineResumeHeic pipelineStage2Heic detect_text_fields_heic
    dsimp only
    rw [htv]
  · intro h1 hcv htv hjs
    have h2 := crop_card_heic_some_results cardDet decoded h1
    rcases hcrop : crop_card_heic cardDet decoded with ⟨c1, c2⟩
    rw [hcrop] at h1 h2
    rcases c1 with _ | cropped
    · simp at h1
    rcases c2 with _ | rs
    · simp at h2
    unfold run_ocr_pipeline_heic
    rw [if_pos rfl, hcrop]
    dsimp only
    rw [hcv]
    unfold pipelineResumeHeic pipelineStage2Heic detect_text_fields_heic
    dsimp only
    rw [htv]
    unfold pipelineTailHeic
    dsimp only
    rw [hjs]
  · intro h2 hcv
    rcases hcrop : crop_card_easyocr cardDet decoded with ⟨c1, c2⟩
    rw [hcrop] at h2
    rcases c2 with _ | rs
    · simp at h2
    · unfold run_ocr_pipeline_easyocr
      rw [if_pos rfl, hcrop]
      dsimp only
      rw [hcv]
  · intro h1 hcv htv
    have h2 := crop_card_easyocr_some_results cardDet decoded h1
    rcases hcrop : crop_card_easyocr cardDet decoded with ⟨c1, c2⟩
    rw [hcrop] at h1 h2
    rcases c1 with _ | cropped
    · simp at h1
    rcases c2 with _ | rs
    · simp at h2
    unfold run_ocr_pipeline_easyocr
    rw [if_pos rfl, hcrop]
    dsimp only
    rw [hcv]
    unfold pipelineResumeEasy pipelineStage2Easy detect_text_fields_easyocr
    dsimp only
    rw [htv]
  · intro h1 hcv htv hjs
    have h2 := crop_card_easyocr_some_results cardDet decoded h1
    rcases hcrop : crop_card_easyocr cardDet decoded with ⟨c1, c2⟩
    rw [hcrop] at h1 h2
    rcases c1 with _ | cropped
    · simp at h1
    rcases c2 with _ | rs
    · simp at h2
    unfold run_ocr_pipeline_easyocr
    rw [if_pos rfl, hcrop]
    dsimp only
    rw [hcv]
    unfold pipelineResumeEasy pipelineStage2Easy detect_text_fields_easyocr
    dsimp only
    rw [htv]
    unfold pipelineTailEasy
    dsimp only
    rw [hjs]

/-- Witness for `C8_side_effect_failure_aborts` at concrete runs where the
card viz write, the text viz write or the JSON dump raises. -/
theorem C8_side_effect_failure_aborts_witness :
    (run_ocr_pipeline_heic true (some img1) cdetConst tdetEmpty ocrEmpty
        ⟨Except.error "w1", Except.ok (), Except.ok ()⟩).1 =
      Except.error (PyErr.exn "w1") ∧
    (run_ocr_pipeline_heic true (some img1) cdetConst tdetEmpty ocrEmpty
        ⟨Except.ok (), Except.error "w2", Except.ok ()⟩).1 =
      Except.error (PyErr.exn "w2") ∧
    (run_ocr_pipeline_easyocr true (some img1) cdetConst tdetEmpty
        readtextEmpty fxJsonFail).1 = Except.error (PyErr.exn "disk full") :=
  ⟨(C8_side_effect_failure_aborts (some img1) cdetConst tdetEmpty ocrEmpty
      readtextEmpty ⟨Except.error "w1", Except.ok (), Except.ok ()⟩ "w1").1
      rfl rfl,
   (C8_side_effect_failure_aborts (some img1) cdetConst tdetEmpty ocrEmpty
      readtextEmpty ⟨Except.ok (), Except.error "w2", Except.ok ()⟩ "w2").2.1
      rfl rfl rfl,
   (C8_side_effect_failure_aborts (some img1) cdetConst tdetEmpty ocrEmpty
      readtextEmpty fxJsonFail "disk full").2.2.2.2.2 rfl rfl rfl rfl⟩

end ThaiIdOcr
